import Mathlib

/-!
Verification of the skyeye SRS client core (data plane and audio plane).

The data plane definitions embed the data client in src/unnamed/part_000
(package data). The audio plane definitions embed
src/pkg/simpleradio/audio/transmit.go and client.go. Times are modelled in
milliseconds as integers. Helper predicates whose implementation lives in the
types package outside this excerpt (radio matching, spectator test) are
modelled from the spec and say so in their doc comments.
-/

namespace Skyeye

/-! ## Data model -/

abbrev GUID := String

inductive Coalition
  | spectator
  | red
  | blue
deriving DecidableEq, Repr

/-- Modelled from the spec: the coalition enum is {spectator, red, blue} and
IsSpectator (types package, outside this excerpt) recognizes the spectator
coalition, which matches all coalitions for compatibility purposes. -/
def IsSpectator (c : Coalition) : Bool :=
  decide (c = Coalition.spectator)

structure Radio where
  frequency : Int
  modulation : Nat
  encryptionEnabled : Bool
  encryptionKey : Nat
  guard : Bool
deriving DecidableEq, Repr

/-- Modelled from the spec: two radios match when their (frequency, modulation,
encryption state/key) tuples are equal and both are tuned, i.e. frequency above
a minimum threshold of 8 MHz (8000000 Hz). The implementation lives in the
types package, outside this excerpt. -/
def radiosMatch (a b : Radio) : Bool :=
  decide (a.frequency = b.frequency) && decide (a.modulation = b.modulation) &&
  decide (a.encryptionEnabled = b.encryptionEnabled) &&
  decide (a.encryptionKey = b.encryptionKey) &&
  decide (8000000 < a.frequency) && decide (8000000 < b.frequency)

structure RadioInfo where
  unitID : Nat
  unit : String
  radios : List Radio
deriving DecidableEq, Repr

/-- Modelled from the spec: two RadioInfos are on frequency iff at least one
radio pair across their sequences matches (RadioInfo.IsOnFrequency in the types
package, outside this excerpt). -/
def RadioInfo.IsOnFrequency (self other : RadioInfo) : Bool :=
  self.radios.any fun a => other.radios.any fun b => radiosMatch a b

structure ClientInfo where
  guid : GUID
  name : String
  coalition : Coalition
  radioInfo : RadioInfo
deriving DecidableEq, Repr

/-- The peer directory: the clients map of the data client (GUID to ClientInfo),
modelled as a function to optional entries. -/
abbrev Directory := GUID → Option ClientInfo

def emptyDirectory : Directory := fun _ => none

/-- Map assignment, the upsert arm of syncClient (clients[other.GUID] = other). -/
def Directory.upsert (d : Directory) (k : GUID) (v : ClientInfo) : Directory :=
  fun g => if g = k then some v else d g

/-- Map deletion (delete(clients, guid)). -/
def Directory.erase (d : Directory) (k : GUID) : Directory :=
  fun g => if g = k then none else d g

/-! ## Data client: directory maintenance (src/unnamed/part_000) -/

/-- Embeds the isSameCoalition computation of syncClient (line 228): the other
client is acceptable when its coalition equals ours or it is a spectator. -/
def isSameCoalition (self other : ClientInfo) : Bool :=
  decide (self.coalition = other.coalition) || IsSpectator other.coalition

/-- Embeds the isOnFrequency computation of syncClient (line 229). -/
def isOnFrequencyWith (self other : ClientInfo) : Bool :=
  self.radioInfo.IsOnFrequency other.radioInfo

/-- Embeds syncClient (src/unnamed/part_000 lines 205-239). The frequencies
loop in the source (lines 215-221) only builds a string list for logging and
is omitted; locking is omitted since the router is the single writer. -/
def syncClient (self : ClientInfo) (clients : Directory) (other : ClientInfo) : Directory :=
  if other.guid = self.guid then clients
  else if other.radioInfo.radios.length = 0 then clients
  else if isSameCoalition self other && isOnFrequencyWith self other then
    Directory.upsert clients other.guid other
  else
    Directory.erase clients other.guid

/-- Embeds syncClients (lines 197-202): apply syncClient to each entry. -/
def syncClients (self : ClientInfo) (clients : Directory) (others : List ClientInfo) : Directory :=
  others.foldl (syncClient self) clients

/-- Embeds removeClient (lines 241-245). -/
def removeClient (clients : Directory) (info : ClientInfo) : Directory :=
  Directory.erase clients info.guid

inductive MessageType
  | ping
  | serverSettings
  | versionMismatch
  | sync
  | update
  | radioUpdate
  | clientDisconnect
  | externalAWACSModePassword
  | externalAWACSModeDisconnect
  | unrecognized
deriving DecidableEq, Repr

structure Message where
  version : String
  type : MessageType
  client : ClientInfo
  clients : List ClientInfo
  externalAWACSModePassword : String
deriving DecidableEq, Repr

/-- Embeds the directory effect of handleMessage (lines 161-189): Sync applies
the single-peer rule to each listed client, Update and RadioUpdate apply it to
the single client, ClientDisconnect removes the client unconditionally; Ping,
ServerSettings, VersionMismatch, ExternalAWACSModeDisconnect and unrecognized
types are logged and ignored, and ExternalAWACSModePassword may trigger an
outgoing RadioUpdate but never touches the directory. -/
def handleMessage (self : ClientInfo) (clients : Directory) (message : Message) : Directory :=
  match message.type with
  | MessageType.sync => syncClients self clients message.clients
  | MessageType.update => syncClient self clients message.client
  | MessageType.radioUpdate => syncClient self clients message.client
  | MessageType.clientDisconnect => removeClient clients message.client
  | _ => clients

/-- The directory reached after handling a sequence of messages, starting from
the empty map built by NewClient (line 78). -/
def runDirectory (self : ClientInfo) (messages : List Message) : Directory :=
  messages.foldl (handleMessage self) emptyDirectory

/-! ## Concrete example clients, used by witnesses -/

def radioEx : Radio :=
  { frequency := 251000000, modulation := 0, encryptionEnabled := false,
    encryptionKey := 0, guard := false }

def selfEx : ClientInfo :=
  { guid := "self", name := "Skyeye", coalition := Coalition.blue,
    radioInfo := { unitID := 100000002, unit := "External AWACS", radios := [radioEx] } }

def peerEx : ClientInfo :=
  { guid := "peer", name := "Viper", coalition := Coalition.blue,
    radioInfo := { unitID := 1, unit := "F-16", radios := [radioEx] } }

/-- The same peer with an empty radios sequence. -/
def peerNoRadiosEx : ClientInfo :=
  { peerEx with radioInfo := { unitID := 1, unit := "F-16", radios := [] } }

/-! ## Lemmas about the directory maintenance -/

theorem syncClient_self_key (self : ClientInfo) (d : Directory) (other : ClientInfo)
    (hd : d self.guid = none) : syncClient self d other self.guid = none := by
  unfold syncClient
  by_cases h1 : other.guid = self.guid
  · simp [h1, hd]
  · have hne : self.guid ≠ other.guid := fun h => h1 h.symm
    by_cases h2 : other.radioInfo.radios.length = 0
    · simp [h1, h2, hd]
    · by_cases h3 : isSameCoalition self other && isOnFrequencyWith self other
      · simp [h1, h2, h3, Directory.upsert, hne, hd]
      · simp [h1, h2, h3, Directory.erase, hne, hd]

theorem syncClients_self_key (self : ClientInfo) (others : List ClientInfo)
    (d : Directory) (hd : d self.guid = none) :
    syncClients self d others self.guid = none := by
  induction others generalizing d with
  | nil => exact hd
  | cons o os ih => exact ih _ (syncClient_self_key self d o hd)

theorem handleMessage_self_key (self : ClientInfo) (d : Directory) (m : Message)
    (hd : d self.guid = none) : handleMessage self d m self.guid = none := by
  unfold handleMessage
  cases m.type with
  | sync => exact syncClients_self_key self m.clients d hd
  | update => exact syncClient_self_key self d m.client hd
  | radioUpdate => exact syncClient_self_key self d m.client hd
  | clientDisconnect =>
      unfold removeClient Directory.erase
      simp [hd]
  | ping => exact hd
  | serverSettings => exact hd
  | versionMismatch => exact hd
  | externalAWACSModePassword => exact hd
  | externalAWACSModeDisconnect => exact hd
  | unrecognized => exact hd

theorem foldl_handleMessage_self_key (self : ClientInfo) (ms : List Message) :
    ∀ d : Directory, d self.guid = none →
      (ms.foldl (handleMessage self) d) self.guid = none := by
  induction ms with
  | nil => intro d hd; exact hd
  | cons m ms ih =>
      intro d hd
      exact ih _ (handleMessage_self_key self d m hd)

/-! ## Claim theorems: data plane directory -/

/-- Claim C1: the single-peer rule of syncClient. An incoming ClientInfo is
ignored when its GUID equals the self GUID or its radios sequence is empty;
otherwise, if its coalition equals the self coalition or it is a spectator,
and its RadioInfo is on frequency with the self RadioInfo, the directory entry
for its GUID is upserted to that ClientInfo; in every other case the entry for
its GUID is deleted. -/
theorem syncClient_single_peer_rule (self : ClientInfo) (d : Directory) (other : ClientInfo) :
    ((other.guid = self.guid ∨ other.radioInfo.radios.length = 0) →
        syncClient self d other = d)
    ∧ (other.guid ≠ self.guid → other.radioInfo.radios.length ≠ 0 →
        (isSameCoalition self other && isOnFrequencyWith self other) = true →
        syncClient self d other = Directory.upsert d other.guid other)
    ∧ (other.guid ≠ self.guid → other.radioInfo.radios.length ≠ 0 →
        (isSameCoalition self other && isOnFrequencyWith self other) = false →
        syncClient self d other = Directory.erase d other.guid) := by
  refine ⟨?_, ?_, ?_⟩
  · rintro (h | h) <;> simp [syncClient, h]
  · intro h1 h2 h3
    simp [syncClient, h1, h2, h3]
  · intro h1 h2 h3
    simp [syncClient, h1, h2, h3]

/-- Witness for C1: a concrete same-coalition on-frequency peer is upserted. -/
theorem syncClient_single_peer_rule_witness :
    syncClient selfEx emptyDirectory peerEx =
      Directory.upsert emptyDirectory peerEx.guid peerEx :=
  (syncClient_single_peer_rule selfEx emptyDirectory peerEx).2.1
    (by decide) (by decide) (by decide)

/-- Claim C2: for every sequence of handled messages, of any types and contents,
the peer directory never contains an entry whose key is the self GUID. -/
theorem directory_never_contains_self (self : ClientInfo) (messages : List Message) :
    runDirectory self messages self.guid = none :=
  foldl_handleMessage_self_key self messages emptyDirectory rfl

/-- Claim C10: a sync entry (Update, RadioUpdate, or one element of a Sync
batch) carrying an empty radios sequence leaves the directory unchanged for
every GUID; in particular a stale entry stored for the same GUID is retained,
not removed. -/
theorem syncClient_empty_radios_retains_stale (self : ClientInfo) (d : Directory)
    (other stale : ClientInfo)
    (hstored : d other.guid = some stale)
    (hempty : other.radioInfo.radios = []) :
    syncClient self d other = d ∧ syncClient self d other other.guid = some stale := by
  have hlen : other.radioInfo.radios.length = 0 := by simp [hempty]
  have hnoop : syncClient self d other = d := by
    by_cases h1 : other.guid = self.guid
    · simp [syncClient, h1]
    · simp [syncClient, h1, hlen]
  exact ⟨hnoop, by rw [hnoop]; exact hstored⟩

/-- Witness for C10: after storing the example peer, an update for the same
GUID with no radios leaves the stale entry in place. -/
theorem syncClient_empty_radios_retains_stale_witness :
    syncClient selfEx (Directory.upsert emptyDirectory peerEx.guid peerEx) peerNoRadiosEx =
        Directory.upsert emptyDirectory peerEx.guid peerEx ∧
      syncClient selfEx (Directory.upsert emptyDirectory peerEx.guid peerEx) peerNoRadiosEx
        peerNoRadiosEx.guid = some peerEx :=
  syncClient_empty_radios_retains_stale selfEx
    (Directory.upsert emptyDirectory peerEx.guid peerEx) peerNoRadiosEx peerEx
    (by decide) (by decide)

/-! ## Data client: Send (src/unnamed/part_000 lines 248-263) -/

/-- The TCP connection, modelled as the bytes written so far plus a flag saying
whether the next write fails. On a failed write the model leaves the stream
unchanged. -/
structure Conn where
  written : List UInt8
  failWrite : Bool
deriving DecidableEq, Repr

/-- Embeds Send (lines 248-263). json.Marshal is abstracted as the marshal
argument (none models a marshalling error). A message with an empty Version is
rejected before anything is marshalled or written; otherwise the JSON bytes
followed by a single newline (byte 10) are written to the connection. The
returned first component is the error (none on success). -/
def Send (marshal : Message → Option (List UInt8)) (conn : Conn) (message : Message) :
    Option String × Conn :=
  if message.version = "" then (some "message Version is required", conn)
  else
    match marshal message with
    | none => (some "failed to marshal message to JSON", conn)
    | some b =>
        if conn.failWrite then (some "failed to write message", conn)
        else (none, { conn with written := conn.written ++ (b ++ [(10 : UInt8)]) })

/-- Claim C6: Send rejects a message with an empty version and writes nothing;
otherwise it writes exactly the JSON serialization of the message followed by a
single newline, and it returns an error if and only if marshalling or the
write fails. -/
theorem Send_framing (marshal : Message → Option (List UInt8)) (conn : Conn)
    (message : Message) :
    (message.version = "" →
        Send marshal conn message = (some "message Version is required", conn))
    ∧ (message.version ≠ "" → ∀ b, marshal message = some b → conn.failWrite = false →
        Send marshal conn message =
          (none, { conn with written := conn.written ++ (b ++ [(10 : UInt8)]) }))
    ∧ ((Send marshal conn message).1 = none ↔
        message.version ≠ "" ∧ (marshal message).isSome ∧ conn.failWrite = false)
    ∧ ((Send marshal conn message).1.isSome → (Send marshal conn message).2 = conn) := by
  refine ⟨?_, ?_, ?_, ?_⟩
  · intro h; simp [Send, h]
  · intro h b hb hf
    simp [Send, h, hb, hf]
  · by_cases h : message.version = ""
    · simp [Send, h]
    · cases hb : marshal message with
      | none => simp [Send, h, hb]
      | some b =>
          by_cases hf : conn.failWrite
          · simp [Send, h, hb, hf]
          · simp [Send, h, hb, hf]
  · by_cases h : message.version = ""
    · simp [Send, h]
    · cases hb : marshal message with
      | none => simp [Send, h, hb]
      | some b =>
          by_cases hf : conn.failWrite
          · simp [Send, h, hb, hf]
          · simp [Send, h, hb, hf]

/-- A concrete message for the Send witness, carrying the stubbed protocol
version of newMessage (line 268). -/
def messageEx : Message :=
  { version := "2.1.0.2", type := MessageType.sync, client := selfEx,
    clients := [], externalAWACSModePassword := "" }

/-- Witness for C6: with a marshaller returning two bytes and a healthy
connection, Send appends those bytes plus the newline byte. -/
theorem Send_framing_witness :
    Send (fun _ => some [123, 125]) { written := [], failWrite := false } messageEx =
      (none, { written := [123, 125, 10], failWrite := false }) :=
  (Send_framing (fun _ => some [123, 125]) { written := [], failWrite := false }
      messageEx).2.1 (by decide) [123, 125] rfl rfl

/-! ## Data client: Run startup sequence (src/unnamed/part_000 lines 89-158) -/

inductive RunEvent
  | readyClosed
  | syncSent
  | eamPasswordSent
deriving DecidableEq, Repr

/-- Embeds the startup part of the data client Run (lines 89-158). After the
reader goroutine is launched, Run closes the ready channel (line 129), then
sends the Sync message (line 133) and then the ExternalAWACSModePassword
message (line 138); each failed send makes Run return an error. The events
list records, in order, the ready-channel close and each successful send;
syncOk and eamOk abstract whether the corresponding Send succeeds. The second
component is the error Run returns during startup (none when the startup
reaches the receive loop). -/
def dataRunStartup (syncOk eamOk : Bool) : List RunEvent × Option String :=
  let events := [RunEvent.readyClosed]
  if !syncOk then (events, some "initial sync failed")
  else
    let events := events ++ [RunEvent.syncSent]
    if !eamOk then (events, some "external AWACS mode failed")
    else (events ++ [RunEvent.eamPasswordSent], none)

/-- Counterexample to claim C4 as stated: in a run where both handshake sends
succeed, the ready channel is closed first, before the Sync message is sent —
not after the handshake. -/
theorem dataRun_ready_closed_before_handshake :
    (dataRunStartup true true).1 =
      [RunEvent.readyClosed, RunEvent.syncSent, RunEvent.eamPasswordSent] := by
  decide

/-- Claim C4 (amended): Run signals ready by closing the ready channel first,
immediately after launching the reader goroutine, and then performs the
handshake: it sends the Sync message and then the ExternalAWACSModePassword
message, and each of these sends must succeed or Run returns an error. -/
theorem dataRunStartup_order (syncOk eamOk : Bool) :
    (dataRunStartup syncOk eamOk).1.head? = some RunEvent.readyClosed
    ∧ ((dataRunStartup syncOk eamOk).2 = none ↔ syncOk = true ∧ eamOk = true)
    ∧ (syncOk = false →
        dataRunStartup syncOk eamOk = ([RunEvent.readyClosed], some "initial sync failed"))
    ∧ (syncOk = true → eamOk = false →
        dataRunStartup syncOk eamOk =
          ([RunEvent.readyClosed, RunEvent.syncSent], some "external AWACS mode failed"))
    ∧ (syncOk = true → eamOk = true →
        dataRunStartup syncOk eamOk =
          ([RunEvent.readyClosed, RunEvent.syncSent, RunEvent.eamPasswordSent], none)) := by
  cases syncOk <;> cases eamOk <;> simp [dataRunStartup]

/-- Witness for C4 (amended): the failing-sync run closes ready and returns the
sync error. -/
theorem dataRunStartup_order_witness :
    dataRunStartup false true = ([RunEvent.readyClosed], some "initial sync failed") :=
  (dataRunStartup_order false true).2.2.1 rfl

/-! ## Audio client: pacing (src/pkg/simpleradio/audio/transmit.go) -/

/-- Modelled from the spec: the frame length is a single fixed constant of
about 40 ms used by all pacing math; its definition lives in the audio package
outside this excerpt. All times in this development are integer milliseconds. -/
def frameLength : Int := 40

/-- The sleep target computed before writing packet i of a batch started at
startTime (transmit.go lines 57-61): startTime + i*frameLength - frameLength/2. -/
def nominalWriteTime (start : Int) (i : Nat) : Int :=
  start + (i : Int) * frameLength - frameLength / 2

/-- Embeds the loop body of writePackets (transmit.go lines 52-67). Arguments:
current time, index of the next packet, packets remaining. Sleeping until a
target in the past is a no-op, so the write time of a packet is the maximum of
the current time and its nominal write time; writeOk i abstracts the outcome
of the UDP write of packet i, and a failed write is logged and the loop simply
continues, so every remaining packet is still attempted. -/
def writePacketsFrom (writeOk : Nat → Bool) (start : Int) : Int → Nat → Nat → List (Int × Bool)
  | _, _, 0 => []
  | now, i, Nat.succ m =>
      let t := max now (nominalWriteTime start i)
      (t, writeOk i) :: writePacketsFrom writeOk start t (i + 1) m

/-- Embeds writePackets (transmit.go lines 50-68): startTime is read once, then
each packet is written after sleeping until its nominal write time. The result
lists, in order, each packet's write time and whether its UDP write succeeded;
the Go function returns nothing, so no error escapes to the caller. -/
def writePackets (writeOk : Nat → Bool) (start : Int) (n : Nat) : List (Int × Bool) :=
  writePacketsFrom writeOk start start 0 n

/-- Embeds the return behavior of the audio client Run (client.go lines
100-164): Run blocks on ctx.Done and then returns nil; no value produced by
the transmit path flows into the return value. The outer Option says whether
Run has returned; the inner Option is the error value it returned. -/
def audioRunReturn (ctxCanceled : Bool) : Option (Option String) :=
  if ctxCanceled then some none else none

/-! ## Audio client: clear-channel wait (transmit.go lines 28-48, 70-77) -/

/-- Modelled from the spec: a receiver is currently receiving iff its deadline
is in the future (isReceivingTransmission of the receiver submodule, outside
this excerpt). env t lists the deadlines of the configured receivers as read
at time t; receiversBusy says whether any of them is currently receiving. -/
def receiversBusy (env : Int → List Int) (t : Int) : Bool :=
  (env t).any fun d => decide (t < d)

/-- Embeds the deadline computation of waitForClearChannel (lines 31-39):
starting from now, take each receiver that is currently receiving and keep the
latest deadline seen so far. -/
def latestDeadline (t : Int) (ds : List Int) : Int :=
  ds.foldl (fun acc d => if t < d ∧ acc < d then d else acc) t

/-- Embeds waitForClearChannel (transmit.go lines 28-48): while any receiver is
currently receiving, sleep until the latest deadline among active receivers
plus 250 ms, then re-check; return the current time once no receiver is
receiving. fuel bounds the number of loop iterations; none models a loop that
has not terminated within fuel iterations. -/
def waitForClearChannel (env : Int → List Int) : Nat → Int → Option Int
  | 0, _ => none
  | Nat.succ fuel, t =>
      if receiversBusy env t then
        waitForClearChannel env fuel (latestDeadline t (env t) + 250)
      else
        some t

/-- Embeds tx (transmit.go lines 70-77): under the busy lock (the lock makes
each batch transmission an uninterrupted critical section, which is why a
sequential model is faithful), wait for a clear channel, then, unless muted,
write the batch. Returns the write times of the batch, [] when muted, none
when the wait never completes. -/
def tx (env : Int → List Int) (fuel : Nat) (t : Int) (mute : Bool)
    (writeOk : Nat → Bool) (n : Nat) : Option (List Int) :=
  match waitForClearChannel env fuel t with
  | none => none
  | some tclear => some (if mute then [] else (writePackets writeOk tclear n).map Prod.fst)

/-! ## Lemmas about pacing and the clear-channel wait -/

theorem nominalWriteTime_step (start : Int) (i : Nat) :
    nominalWriteTime start i ≤ nominalWriteTime start (i + 1) := by
  simp only [nominalWriteTime, frameLength]
  push_cast
  linarith

theorem writePacketsFrom_times (writeOk : Nat → Bool) (start : Int) :
    ∀ (m i : Nat) (now : Int), now ≤ nominalWriteTime start i →
      (writePacketsFrom writeOk start now i m).map Prod.fst =
        (List.range m).map (fun j => nominalWriteTime start (i + j)) := by
  intro m
  induction m with
  | zero => intro i now _; simp [writePacketsFrom]
  | succ m ih =>
      intro i now h
      have hmax : max now (nominalWriteTime start i) = nominalWriteTime start i :=
        max_eq_right h
      have ih2 := ih (i + 1) (nominalWriteTime start i) (nominalWriteTime_step start i)
      simp only [writePacketsFrom, List.map_cons, hmax, ih2]
      rw [List.range_succ_eq_map, List.map_cons, List.map_map]
      simp only [Nat.add_zero]
      congr 1
      apply List.map_congr_left
      intro j _
      simp only [Function.comp_apply]
      congr 1
      omega

theorem nominalWriteTime_zero_le (start : Int) : nominalWriteTime start 0 ≤ start := by
  simp only [nominalWriteTime, frameLength]
  push_cast
  linarith

theorem writePackets_times (writeOk : Nat → Bool) (start : Int) (m : Nat) :
    (writePackets writeOk start (m + 1)).map Prod.fst =
      start :: (List.range m).map (fun j => nominalWriteTime start (j + 1)) := by
  unfold writePackets
  have hmax : max start (nominalWriteTime start 0) = start :=
    max_eq_left (nominalWriteTime_zero_le start)
  have hrest := writePacketsFrom_times writeOk start m 1 start
    (by
      simp only [nominalWriteTime, frameLength]
      push_cast
      linarith)
  simp only [writePacketsFrom, List.map_cons, hmax, hrest]
  congr 1
  apply List.map_congr_left
  intro j _
  congr 1
  omega

theorem writePacketsFrom_ge (writeOk : Nat → Bool) (start : Int) :
    ∀ (m i : Nat) (now : Int), ∀ w ∈ writePacketsFrom writeOk start now i m, now ≤ w.1 := by
  intro m
  induction m with
  | zero => intro i now w hw; simp [writePacketsFrom] at hw
  | succ m ih =>
      intro i now w hw
      simp only [writePacketsFrom, List.mem_cons] at hw
      rcases hw with hw | hw
      · rw [hw]
        exact le_max_left _ _
      · exact le_trans (le_max_left _ _) (ih (i + 1) (max now (nominalWriteTime start i)) w hw)

theorem writePacketsFrom_length (writeOk : Nat → Bool) (start : Int) :
    ∀ (m i : Nat) (now : Int), (writePacketsFrom writeOk start now i m).length = m := by
  intro m
  induction m with
  | zero => intro i now; rfl
  | succ m ih => intro i now; simp [writePacketsFrom, ih]

theorem latestDeadline_ge (t : Int) (ds : List Int) : t ≤ latestDeadline t ds := by
  unfold latestDeadline
  suffices h : ∀ (l : List Int) (acc : Int),
      acc ≤ l.foldl (fun acc d => if t < d ∧ acc < d then d else acc) acc by
    exact h ds t
  intro l
  induction l with
  | nil => intro acc; exact le_refl acc
  | cons d l ih =>
      intro acc
      refine le_trans ?_ (ih (if t < d ∧ acc < d then d else acc))
      by_cases h : t < d ∧ acc < d
      · simp only [if_pos h]
        exact le_of_lt h.2
      · simp only [if_neg h]
        exact le_refl acc

theorem waitForClearChannel_clear (env : Int → List Int) :
    ∀ (fuel : Nat) (t tclear : Int), waitForClearChannel env fuel t = some tclear →
      t ≤ tclear ∧ ∀ d ∈ env tclear, d ≤ tclear := by
  intro fuel
  induction fuel with
  | zero => intro t tclear h; cases h
  | succ fuel ih =>
      intro t tclear h
      unfold waitForClearChannel at h
      by_cases hb : receiversBusy env t
      · rw [if_pos hb] at h
        obtain ⟨h1, h2⟩ := ih _ _ h
        have := latestDeadline_ge t (env t)
        exact ⟨by omega, h2⟩
      · rw [if_neg hb] at h
        cases h
        refine ⟨le_refl t, ?_⟩
        intro d hd
        by_contra hlt
        apply hb
        simp only [receiversBusy, List.any_eq_true, decide_eq_true_eq]
        exact ⟨d, hd, by omega⟩

/-! ## Claim theorems: audio plane -/

/-- Claim C7: for every batch of n packets, the sleep before packet i targets
exactly startTime + i*frameLength - frameLength/2; for every packet after the
first the write happens at exactly that instant, the last write happens at the
nominal instant of packet n-1, and therefore the total send duration of the
batch is at least (n-1) * frameLength/2. -/
theorem writePackets_pacing (writeOk : Nat → Bool) (start : Int) (n i : Nat)
    (h1 : 1 ≤ i) (h2 : i < n) :
    nominalWriteTime start i = start + (i : Int) * frameLength - frameLength / 2
    ∧ ((writePackets writeOk start n).map Prod.fst).get? i = some (nominalWriteTime start i)
    ∧ ((writePackets writeOk start n).map Prod.fst).getLast? =
        some (nominalWriteTime start (n - 1))
    ∧ ((n : Int) - 1) * (frameLength / 2) ≤ nominalWriteTime start (n - 1) - start := by
  obtain ⟨k, rfl⟩ : ∃ k, i = k + 1 := ⟨i - 1, by omega⟩
  obtain ⟨m, rfl⟩ : ∃ m, n = m + 2 := ⟨n - 2, by omega⟩
  refine ⟨rfl, ?_, ?_, ?_⟩
  · rw [writePackets_times]
    have hk : k < m + 1 := by omega
    rw [List.get?_cons_succ, List.get?_map, List.get?_range hk]
    rfl
  · rw [writePackets_times]
    rw [List.range_succ, List.map_append, List.map_singleton, ← List.cons_append,
      List.getLast?_concat]
    rfl
  · simp only [nominalWriteTime, frameLength]
    have hm : (0 : Int) ≤ (m : Int) := Int.natCast_nonneg m
    push_cast
    norm_num
    linarith

/-- Witness for C7: a concrete three-packet batch started at time 0. -/
theorem writePackets_pacing_witness :
    nominalWriteTime 0 1 = 0 + (1 : Int) * frameLength - frameLength / 2
    ∧ ((writePackets (fun _ => true) 0 3).map Prod.fst).get? 1 = some (nominalWriteTime 0 1)
    ∧ ((writePackets (fun _ => true) 0 3).map Prod.fst).getLast? =
        some (nominalWriteTime 0 (3 - 1))
    ∧ ((3 : Int) - 1) * (frameLength / 2) ≤ nominalWriteTime 0 (3 - 1) - 0 :=
  writePackets_pacing (fun _ => true) 0 3 1 (by decide) (by decide)

/-- Claim C9: the sleep computed before the first packet of a batch targets
startTime - frameLength/2, which is half a frame in the past at the moment it
is computed (the delay is -frameLength/2, never positive), so the first packet
is written immediately at startTime with no pacing delay. -/
theorem first_packet_written_immediately (writeOk : Nat → Bool) (start : Int) (n : Nat)
    (hn : 0 < n) :
    nominalWriteTime start 0 - start = -(frameLength / 2)
    ∧ nominalWriteTime start 0 - start ≤ 0
    ∧ ((writePackets writeOk start n).map Prod.fst).head? = some start := by
  obtain ⟨m, rfl⟩ : ∃ m, n = m + 1 := ⟨n - 1, by omega⟩
  have h0 : nominalWriteTime start 0 - start = -(frameLength / 2) := by
    simp only [nominalWriteTime, frameLength]
    push_cast
    ring
  refine ⟨h0, by rw [h0]; norm_num [frameLength], ?_⟩
  rw [writePackets_times]
  rfl

/-- Witness for C9: a concrete two-packet batch started at time 5. -/
theorem first_packet_written_immediately_witness :
    nominalWriteTime 5 0 - 5 = -(frameLength / 2)
    ∧ nominalWriteTime 5 0 - 5 ≤ 0
    ∧ ((writePackets (fun _ => true) 5 2).map Prod.fst).head? = some 5 :=
  first_packet_written_immediately (fun _ => true) 5 2 (by decide)

/-- Counterexample to claim C5 as stated: in a batch of two packets in which
every UDP write fails, both writes are still attempted (writePackets logs the
error and continues, surfacing nothing), and Run, which returns only once the
context is canceled, returns nil rather than a fatal error. -/
theorem audio_write_failure_not_surfaced :
    writePackets (fun _ => false) 0 2 = [(0, false), (20, false)]
    ∧ audioRunReturn true = some none := by
  constructor
  · rfl
  · rfl

/-- Claim C5 (amended): a UDP write failure while transmitting voice packets is
logged and the batch continues — every packet is still attempted and no error
reaches Run — and Run returns, always with nil, exactly when the context is
canceled; it never surfaces an error. -/
theorem audioRun_nil_only_on_cancel (writeOk : Nat → Bool) (start : Int) (n : Nat)
    (c : Bool) :
    (writePackets writeOk start n).length = n
    ∧ (audioRunReturn c = some none ↔ c = true)
    ∧ ∀ e : String, audioRunReturn c ≠ some (some e) := by
  refine ⟨writePacketsFrom_length writeOk start n 0 start, ?_, ?_⟩
  · cases c <;> simp [audioRunReturn]
  · cases c <;> simp [audioRunReturn]

/-- Claim C3: whenever an unmuted batch is transmitted, the clear-channel wait
under the busy lock completes first, at an instant tclear at which no receiver
deadline lies in the future (each busy iteration having slept until the latest
active deadline plus 250 ms before re-checking), and every packet write of the
batch happens at or after tclear — no packet is written while a receiver
deadline known to the transmitter is in the future. -/
theorem tx_no_write_while_receiving (env : Int → List Int) (fuel : Nat) (t : Int)
    (writeOk : Nat → Bool) (n : Nat) (ws : List Int)
    (h : tx env fuel t false writeOk n = some ws) :
    ∃ tclear, waitForClearChannel env fuel t = some tclear
      ∧ t ≤ tclear
      ∧ (∀ d ∈ env tclear, d ≤ tclear)
      ∧ (∀ w ∈ ws, tclear ≤ w) := by
  unfold tx at h
  cases hw : waitForClearChannel env fuel t with
  | none => rw [hw] at h; cases h
  | some tclear =>
      rw [hw] at h
      simp only [Bool.false_eq_true, if_false, Option.some.injEq] at h
      obtain ⟨hle, hclear⟩ := waitForClearChannel_clear env fuel t tclear hw
      refine ⟨tclear, rfl, hle, hclear, ?_⟩
      intro w hwmem
      rw [← h] at hwmem
      obtain ⟨p, hp, rfl⟩ := List.mem_map.mp hwmem
      exact writePacketsFrom_ge writeOk tclear n 0 tclear p hp

/-- A concrete receiver environment for the C3 witness: one receiver whose
deadline, read at time 0, is 300 ms in the future; idle at any later check. -/
def envEx : Int → List Int := fun t => if t = 0 then [300] else []

/-- Witness for C3: with the example environment the wait sleeps once until
300 + 250 = 550 ms and the single packet is written at 550 ms. -/
theorem tx_no_write_while_receiving_witness :
    ∃ tclear, waitForClearChannel envEx 2 0 = some tclear
      ∧ (0 : Int) ≤ tclear
      ∧ (∀ d ∈ envEx tclear, d ≤ tclear)
      ∧ (∀ w ∈ [(550 : Int)], tclear ≤ w) :=
  tx_no_write_while_receiving envEx 2 0 (fun _ => true) 1 [550] (by decide)

/-- Claim C8: a muted transmission still takes the busy lock and performs
exactly the same clear-channel wait as an unmuted one, and only then drops the
batch: it writes no packet, and it completes exactly when the unmuted
transmission would. -/
theorem tx_muted_drops_after_wait (env : Int → List Int) (fuel : Nat) (t : Int)
    (writeOk : Nat → Bool) (n : Nat) :
    tx env fuel t true writeOk n = (waitForClearChannel env fuel t).map (fun _ => [])
    ∧ ((tx env fuel t true writeOk n).isSome ↔ (tx env fuel t false writeOk n).isSome) := by
  unfold tx
  cases waitForClearChannel env fuel t <;> simp

end Skyeye
